import Mathlib

/-!
# Verification of the Vetting-Agent validation & classification engine

Shallow embedding of `src/project/src/App.tsx` (the only logic-bearing
source file).  Strings that undergo character-level processing (query
building, tokenization, substring matching) are modelled as `List Char`;
JavaScript numbers are modelled as exact rationals `ℚ`, and
`Math.round` as `⌊x + 1/2⌋` (JS rounds half towards +∞, which agrees on
the non-negative values arising here).
-/

namespace Vetting

/-- Review status of a record (`'pending' | 'approved' | 'rejected'`). -/
inductive Status where
  | pending
  | approved
  | rejected
deriving DecidableEq, Repr

/-- Result of `validateWithSerper` (TS interface `ContentValidation`). -/
structure ContentValidation where
  status : Status
  message : String
  confidence : ℚ
deriving DecidableEq, Repr

/-- One entry of `data.organic` in a Serper response
(TS interface `SerperSearchResult`; the unused `link` field is omitted). -/
structure SearchResult where
  title : Option String
  snippet : Option String
deriving DecidableEq, Repr

/-- A parsed CSV row (TS interface `ParsedRow`): the distinguished optional
text fields plus the values of any further columns. -/
structure ParsedRow where
  url : Option String
  title : Option String
  content : Option String
  description : Option String
  text : Option String
  extra : List String
deriving DecidableEq, Repr

/-- The `serperValidation` annotation attached to a record. -/
structure SerperValidation where
  isValid : Bool
  message : String
deriving DecidableEq, Repr

/-- Outcome of the single `fetch` call to the search endpoint, seen from the
core: a thrown failure (transport error or, via the explicit `throw`, a
non-success HTTP status), or a parsed JSON body whose `organic` field may be
absent. -/
inductive FetchOutcome where
  | failure
  | success (organic : Option (List SearchResult))
deriving DecidableEq, Repr

/-- JS `[...].filter(Boolean).join(' ')`: drop absent (`undefined`) and
empty-string fields, join the rest with single spaces. -/
def joinTruthy (fields : List (Option String)) : String :=
  String.intercalate " " ((fields.filterMap id).filter (fun s => s ≠ ""))

/-- The four content fields of a row, in the fixed priority order used by
both the query builder and the relevance scorer. -/
def contentFields (row : ParsedRow) : List (Option String) :=
  [row.title, row.content, row.description, row.text]

/-- QueryBuilder: `[title,content,description,text].filter(Boolean).join(' ').slice(0,100)`. -/
def searchQuery (row : ParsedRow) : List Char :=
  ((joinTruthy (contentFields row)).toList).take 100

/-- The row's comparison content: same concatenation, lowercased, untruncated. -/
def rowContent (row : ParsedRow) : List Char :=
  ((joinTruthy (contentFields row)).toList).map Char.toLower

/-- JS regex `\w`: `[A-Za-z0-9_]`. -/
def isWordChar (c : Char) : Bool :=
  c.isAlphanum || c = '_'

/-- Does `hay` start with `needle`? (auxiliary for substring containment). -/
def startsWithCS : List Char → List Char → Bool
  | [], _ => true
  | _ :: _, [] => false
  | a :: as, b :: bs => (a == b) && startsWithCS as bs

/-- JS `hay.includes(needle)`: substring containment. -/
def containsSub (hay needle : List Char) : Bool :=
  startsWithCS needle hay ||
    match hay with
    | [] => false
    | _ :: t => containsSub t needle

/-- Accumulator-style splitter: maximal runs of word characters, i.e. the
(non-empty) tokens of `text.split(/\W+/)`.  The empty tokens JS `split` can
additionally produce are discarded by the length > 3 filter anyway. -/
def wordRunsAux : List Char → List Char → List (List Char)
  | [], acc => if acc.isEmpty then [] else [acc.reverse]
  | c :: cs, acc =>
    if isWordChar c then wordRunsAux cs (c :: acc)
    else if acc.isEmpty then wordRunsAux cs [] else acc.reverse :: wordRunsAux cs []

/-- Split a character list into its maximal word-character runs. -/
def wordRuns (s : List Char) : List (List Char) :=
  wordRunsAux s []

/-- The fixed stop-word list `['the','and','that','this','with','from']`. -/
def stopWords : List (List Char) :=
  [String.toList "the", String.toList "and", String.toList "that",
   String.toList "this", String.toList "with", String.toList "from"]

/-- Token filter: `word.length > 3 && !stopWords.includes(word)`. -/
def keepToken (w : List Char) : Bool :=
  decide (w.length > 3) && !(decide (w ∈ stopWords))

/-- `Set.add`: append the keyword unless already present (JS `Set` keeps
insertion order and ignores re-insertion). -/
def insertKeyword (s : List (List Char)) (w : List Char) : List (List Char) :=
  if w ∈ s then s else s ++ [w]

/-- The searchable text of one result: `[title, snippet].filter(Boolean).join(' ').toLowerCase()`. -/
def resultText (r : SearchResult) : List Char :=
  ((joinTruthy [r.title, r.snippet]).toList).map Char.toLower

/-- Add one result's filtered tokens to the keyword set. -/
def addResultKeywords (s : List (List Char)) (r : SearchResult) : List (List Char) :=
  ((wordRuns (resultText r)).filter keepToken).foldl insertKeyword s

/-- KeywordExtractor: the deduplicated keyword set accumulated over all
results (`searchKeywords` in the source). -/
def extractKeywords (results : List SearchResult) : List (List Char) :=
  results.foldl addResultKeywords []

/-- `relevanceScore`: count of keywords contained in the row content,
accumulated exactly as the source's `forEach` increment does. -/
def relevanceScore (keywords : List (List Char)) (c : List Char) : Nat :=
  keywords.foldl (fun n k => if containsSub c k then n + 1 else n) 0

/-- `confidence = totalKeywords > 0 ? relevanceScore / totalKeywords : 0`. -/
def confidenceOf (keywords : List (List Char)) (c : List Char) : ℚ :=
  if keywords.length > 0 then (relevanceScore keywords c : ℚ) / (keywords.length : ℚ)
  else 0

/-- JS `Math.round` on the non-negative values occurring here: half rounds up. -/
def jsRound (q : ℚ) : ℤ :=
  ⌊q + 1 / 2⌋

/-- The confidence-threshold classification inside `validateWithSerper`
(lines 128–146): `> 0.6` approved, `< 0.5` rejected, otherwise pending. -/
def classifyConfidence (c : ℚ) : Status :=
  if c > 3 / 5 then .approved
  else if c < 1 / 2 then .rejected
  else .pending

/-- The percentage-threshold classification inside `validateRow`
(lines 242–248): `> 60` approved, `< 50` rejected, otherwise pending. -/
def classifyPercentage (p : ℤ) : Status :=
  if p > 60 then .approved
  else if p < 50 then .rejected
  else .pending

/-- `validateWithSerper`, parameterized by whether the API key is configured
and by the outcome of the single `fetch` call. -/
def validateWithSerper (apiKeyPresent : Bool) (fetch : FetchOutcome)
    (row : ParsedRow) : ContentValidation :=
  if !apiKeyPresent then
    ⟨.pending, "Serper API key not configured", 0⟩
  else
    let query := searchQuery row
    if query.isEmpty then
      ⟨.pending, "Insufficient content for validation", 0⟩
    else
      match fetch with
      | .failure =>
        ⟨.pending, "Validation error: Failed to validate with Serper API", 0⟩
      | .success organic =>
        match organic with
        | none => ⟨.pending, "No search results found for comparison", 0⟩
        | some [] => ⟨.pending, "No search results found for comparison", 0⟩
        | some (r :: rs) =>
          let keywords := extractKeywords (r :: rs)
          let confidence := confidenceOf keywords (rowContent row)
          if confidence > 3 / 5 then
            ⟨.approved, "Content verified and relevant", confidence⟩
          else if confidence < 1 / 2 then
            ⟨.rejected, "Content appears irrelevant or insufficient", confidence⟩
          else
            ⟨.pending, "Content needs manual review - moderate relevance", confidence⟩

/-- Result of `validateRow` together with the `serperValidation` annotation it
attaches to the row. -/
structure RowValidation where
  issues : List String
  status : Status
  serper : SerperValidation
deriving DecidableEq, Repr

/-- `validateRow`: re-derives the status from the rounded confidence
percentage, attaches `serperValidation`, and collects `issues`. -/
def validateRow (apiKeyPresent : Bool) (fetch : FetchOutcome)
    (row : ParsedRow) : RowValidation :=
  let validation := validateWithSerper apiKeyPresent fetch row
  let confidencePercentage := jsRound (validation.confidence * 100)
  let status : Status :=
    if confidencePercentage > 60 then .approved
    else if confidencePercentage < 50 then .rejected
    else .pending
  let serper : SerperValidation :=
    ⟨decide (confidencePercentage > 60),
     validation.message ++ " (Confidence: " ++ toString confidencePercentage ++ "%)"⟩
  let issues : List String :=
    if status = .rejected then
      ["Content validation failed: " ++ validation.message ++ " (" ++
        toString confidencePercentage ++ "% confidence)"]
    else if status = .pending then
      ["Content needs review: " ++ validation.message ++ " (" ++
        toString confidencePercentage ++ "% confidence)"]
    else []
  ⟨issues, status, serper⟩

/-- A validated record (TS interface `ScrapedData`; the open field mapping is
kept as the originating row). -/
structure ScrapedData where
  id : String
  row : ParsedRow
  status : Status
  issues : List String
  serperValidation : Option SerperValidation
  scrapedAt : String
deriving DecidableEq, Repr

/-- JS whitespace for `String.trim` (the characters relevant here). -/
def isSpaceChar (c : Char) : Bool :=
  c = ' ' || c = '\t' || c = '\n' || c = '\r'

/-- JS `s.trim()`: strip leading and trailing whitespace. -/
def trimCS (s : List Char) : List Char :=
  (((s.dropWhile isSpaceChar).reverse).dropWhile isSpaceChar).reverse

/-- The blank-row test of `handleFileUpload`:
`Object.values(row).some(v => v && String(v).trim() !== '')`. -/
def hasContent (row : ParsedRow) : Bool :=
  (([row.url, row.title, row.content, row.description, row.text].filterMap id) ++
      row.extra).any (fun s => s ≠ "" && trimCS s.toList ≠ [])

/-- The per-row loop of `handleFileUpload.complete`: skip blank rows, validate
the rest sequentially, ids are `String(index + 1)`. -/
def processRowsAux (apiKeyPresent : Bool) (fetch : ℕ → FetchOutcome)
    (now : String) : ℕ → List ParsedRow → List ScrapedData
  | _, [] => []
  | i, row :: rest =>
    if hasContent row then
      let v := validateRow apiKeyPresent (fetch i) row
      ⟨toString (i + 1), row, v.status, v.issues, some v.serper, now⟩ ::
        processRowsAux apiKeyPresent fetch now (i + 1) rest
    else
      processRowsAux apiKeyPresent fetch now (i + 1) rest

/-- Import processing: the record set produced from the parsed rows. -/
def processRows (apiKeyPresent : Bool) (fetch : ℕ → FetchOutcome)
    (now : String) (rows : List ParsedRow) : List ScrapedData :=
  processRowsAux apiKeyPresent fetch now 0 rows

/-- `handleApprove`: map over the data set, overriding the matching record's
status with `'approved'` via object spread. -/
def handleApprove (id : String) (data : List ScrapedData) : List ScrapedData :=
  data.map (fun item => if item.id = id then { item with status := .approved } else item)

/-- `handleReject`: same, with `'rejected'`. -/
def handleReject (id : String) (data : List ScrapedData) : List ScrapedData :=
  data.map (fun item => if item.id = id then { item with status := .rejected } else item)

end Vetting

namespace Vetting

/-! ## Shared lemmas -/

/-- `validateRow` derives its status from the rounded percentage exactly as
`classifyPercentage` does. -/
lemma validateRow_status (k : Bool) (f : FetchOutcome) (row : ParsedRow) :
    (validateRow k f row).status =
      classifyPercentage (jsRound ((validateWithSerper k f row).confidence * 100)) := rfl

/-- `validateRow` sets `isValid` from the same rounded percentage. -/
lemma validateRow_isValid (k : Bool) (f : FetchOutcome) (row : ParsedRow) :
    (validateRow k f row).serper.isValid =
      decide (jsRound ((validateWithSerper k f row).confidence * 100) > 60) := rfl

/-- On the scored path (key present, non-empty query, non-empty `organic`),
`validateWithSerper` classifies `confidenceOf` of the extracted keywords. -/
lemma validateWithSerper_scored (row : ParsedRow) (r : SearchResult)
    (rs : List SearchResult) (hq : (searchQuery row).isEmpty = false) :
    validateWithSerper true (.success (some (r :: rs))) row =
      (let confidence := confidenceOf (extractKeywords (r :: rs)) (rowContent row)
       if confidence > 3 / 5 then
         ⟨.approved, "Content verified and relevant", confidence⟩
       else if confidence < 1 / 2 then
         ⟨.rejected, "Content appears irrelevant or insufficient", confidence⟩
       else
         ⟨.pending, "Content needs manual review - moderate relevance", confidence⟩) := by
  simp [validateWithSerper, hq]

/-- Empty query short-circuits to the `Insufficient content` outcome. -/
lemma validateWithSerper_emptyQuery (f : FetchOutcome) (row : ParsedRow)
    (hq : (searchQuery row).isEmpty = true) :
    validateWithSerper true f row =
      ⟨.pending, "Insufficient content for validation", 0⟩ := by
  simp [validateWithSerper, hq]

/-- An empty keyword set scores confidence 0. -/
lemma confidenceOf_nil (c : List Char) : confidenceOf [] c = 0 := by
  simp [confidenceOf]

/-- Membership in `insertKeyword`. -/
lemma mem_insertKeyword (s : List (List Char)) (w k : List Char) :
    k ∈ insertKeyword s w ↔ k ∈ s ∨ k = w := by
  unfold insertKeyword
  split
  · constructor
    · exact fun h => Or.inl h
    · rintro (h | rfl)
      · exact h
      · assumption
  · simp

/-- `insertKeyword` preserves `Nodup`. -/
lemma nodup_insertKeyword (s : List (List Char)) (w : List Char)
    (hs : s.Nodup) : (insertKeyword s w).Nodup := by
  unfold insertKeyword
  split
  · exact hs
  · next h => simpa [List.nodup_append, hs] using h

/-- Folding `insertKeyword` over a token list accumulates exactly the union. -/
lemma mem_foldl_insertKeyword (ts : List (List Char)) :
    ∀ (s : List (List Char)) (k : List Char),
      k ∈ ts.foldl insertKeyword s ↔ k ∈ s ∨ k ∈ ts := by
  induction ts with
  | nil => simp
  | cons t ts ih =>
    intro s k
    simp only [List.foldl_cons, ih, mem_insertKeyword, List.mem_cons]
    tauto

/-- Folding `insertKeyword` preserves `Nodup`. -/
lemma nodup_foldl_insertKeyword (ts : List (List Char)) :
    ∀ (s : List (List Char)), s.Nodup → (ts.foldl insertKeyword s).Nodup := by
  induction ts with
  | nil => exact fun s hs => hs
  | cons t ts ih => exact fun s hs => ih _ (nodup_insertKeyword s t hs)

/-- Membership after adding one result's keywords. -/
lemma mem_addResultKeywords (s : List (List Char)) (r : SearchResult)
    (k : List Char) :
    k ∈ addResultKeywords s r ↔
      k ∈ s ∨ (k ∈ wordRuns (resultText r) ∧ keepToken k = true) := by
  unfold addResultKeywords
  rw [mem_foldl_insertKeyword]
  simp [List.mem_filter]

/-- Membership in the accumulated keyword set over a result list. -/
lemma mem_foldl_addResultKeywords (results : List SearchResult) :
    ∀ (s : List (List Char)) (k : List Char),
      k ∈ results.foldl addResultKeywords s ↔
        k ∈ s ∨ ∃ r ∈ results, k ∈ wordRuns (resultText r) ∧ keepToken k = true := by
  induction results with
  | nil => simp
  | cons r rs ih =>
    intro s k
    simp only [List.foldl_cons, ih, mem_addResultKeywords, List.mem_cons]
    constructor
    · rintro ((h | h) | ⟨r', hr', h'⟩)
      · exact Or.inl h
      · exact Or.inr ⟨r, Or.inl rfl, h⟩
      · exact Or.inr ⟨r', Or.inr hr', h'⟩
    · rintro (h | ⟨r', hr' | hr', h'⟩)
      · exact Or.inl (Or.inl h)
      · exact Or.inl (Or.inr (hr' ▸ h'))
      · exact Or.inr ⟨r', hr', h'⟩

/-- `addResultKeywords` preserves `Nodup`, hence so does the fold. -/
lemma nodup_foldl_addResultKeywords (results : List SearchResult) :
    ∀ (s : List (List Char)), s.Nodup → (results.foldl addResultKeywords s).Nodup := by
  induction results with
  | nil => exact fun s hs => hs
  | cons r rs ih =>
    exact fun s hs => ih _ (nodup_foldl_insertKeyword _ _ hs)

/-- The counting fold of `relevanceScore` equals a filter length. -/
lemma foldl_count_eq_filter (c : List Char) (K : List (List Char)) :
    ∀ n : Nat,
      K.foldl (fun n k => if containsSub c k then n + 1 else n) n =
        n + (K.filter (fun k => containsSub c k)).length := by
  induction K with
  | nil => simp
  | cons k ks ih =>
    intro n
    by_cases h : containsSub c k = true
    · simp [h, ih, Nat.add_assoc, Nat.add_comm 1]
    · simp [h, ih, List.filter_cons]

/-- `relevanceScore` counts the keywords contained in the content. -/
lemma relevanceScore_eq (K : List (List Char)) (c : List Char) :
    relevanceScore K c = (K.filter (fun k => containsSub c k)).length := by
  unfold relevanceScore
  simpa using foldl_count_eq_filter c K 0

/-- The records produced by the import loop are exactly the non-blank rows. -/
lemma processRowsAux_rows (k : Bool) (f : ℕ → FetchOutcome) (now : String)
    (rows : List ParsedRow) :
    ∀ i : ℕ,
      (processRowsAux k f now i rows).map (fun d => d.row) = rows.filter hasContent := by
  induction rows with
  | nil => intro i; simp [processRowsAux]
  | cons row rest ih =>
    intro i
    by_cases h : hasContent row = true
    · simp [processRowsAux, h, ih]
    · simp only [Bool.not_eq_true] at h
      simp [processRowsAux, h, ih]

end Vetting

namespace Vetting

/-! ## Claim theorems -/

/-- A non-blank example row (only `content` is set). -/
def rowFailing : ParsedRow :=
  ⟨none, some "genuinely new material", none, none, none, []⟩

/-- C1: the claim (and spec §4.2/§8) requires every provider failure — missing
API key, transport/HTTP failure, empty result set — to leave the record
`pending` with confidence 0.  `validateWithSerper` indeed returns `pending`
with confidence 0 and a descriptive message on each of those paths and never
throws, but `validateRow` then re-derives the record's final status from the
rounded percentage `round(0 * 100) = 0 < 50`, so the record's final status is
`rejected`, contradicting the claim: the code, not the claim, is wrong. -/
theorem C1_provider_failure_final_status :
    hasContent rowFailing = true ∧
    validateWithSerper false .failure rowFailing =
      ⟨.pending, "Serper API key not configured", 0⟩ ∧
    validateWithSerper true .failure rowFailing =
      ⟨.pending, "Validation error: Failed to validate with Serper API", 0⟩ ∧
    validateWithSerper true (.success none) rowFailing =
      ⟨.pending, "No search results found for comparison", 0⟩ ∧
    validateWithSerper true (.success (some [])) rowFailing =
      ⟨.pending, "No search results found for comparison", 0⟩ ∧
    (validateRow false .failure rowFailing).status = .rejected ∧
    (validateRow true .failure rowFailing).status = .rejected ∧
    (validateRow true (.success (some [])) rowFailing).status = .rejected ∧
    (processRows false (fun _ => .failure) "2026-01-01T00:00:00.000Z"
        [rowFailing]).map (fun d => d.status) = [.rejected] := by
  have h0 : classifyPercentage (jsRound ((0 : ℚ) * 100)) = .rejected := by
    have : jsRound ((0 : ℚ) * 100) = 0 := by norm_num [jsRound]
    rw [this]; decide
  have hA : (validateRow false .failure rowFailing).status = .rejected := by
    rw [validateRow_status,
      show (validateWithSerper false .failure rowFailing).confidence = 0 by decide]
    exact h0
  have hB : (validateRow true .failure rowFailing).status = .rejected := by
    rw [validateRow_status,
      show (validateWithSerper true .failure rowFailing).confidence = 0 by decide]
    exact h0
  have hC : (validateRow true (.success (some [])) rowFailing).status = .rejected := by
    rw [validateRow_status,
      show (validateWithSerper true (.success (some [])) rowFailing).confidence = 0
        by decide]
    exact h0
  have hrow : hasContent rowFailing = true := by decide
  refine ⟨hrow, by decide, by decide, by decide, by decide, hA, hB, hC, ?_⟩
  simp [processRows, processRowsAux, hrow, hA]

/-- C2: the claim that the raw-confidence classification in
`validateWithSerper` and the rounded-percentage classification in
`validateRow` agree for *every* confidence in `[0,1]` is false: at
`c = 0.601` the first yields `approved` (`0.601 > 0.6`) while the second
yields `pending` (`round(60.1) = 60` is in the `[50,60]` band). -/
theorem C2_counterexample :
    classifyConfidence (601 / 1000) = .approved ∧
    classifyPercentage (jsRound (601 / 1000 * 100)) = .pending := by
  constructor
  · norm_num [classifyConfidence]
  · have h : jsRound ((601 : ℚ) / 1000 * 100) = 60 := by
      norm_num [jsRound, Int.floor_eq_iff]
    rw [h]; decide

/-- C2 (amended): the two classification steps agree on every confidence that
is a whole number of percent, `c = n/100` (which covers the agreement the spec
demands at the threshold boundaries); and the second step is exactly how the
record's status is derived in the pipeline.  On non-whole percentages the two
steps can disagree (see the counterexample). -/
theorem C2_agreement_on_whole_percentages :
    (∀ n : ℕ, classifyConfidence ((n : ℚ) / 100) =
        classifyPercentage (jsRound ((n : ℚ) / 100 * 100))) ∧
    (∀ (k : Bool) (f : FetchOutcome) (row : ParsedRow),
      (validateRow k f row).status =
        classifyPercentage (jsRound ((validateWithSerper k f row).confidence * 100))) := by
  constructor
  · intro n
    have hmul : ((n : ℚ) / 100) * 100 = ((n : ℤ) : ℚ) := by
      push_cast
      field_simp
    have hround : jsRound ((n : ℚ) / 100 * 100) = (n : ℤ) := by
      unfold jsRound
      rw [hmul, Int.floor_int_add]
      norm_num
    have e1 : ((n : ℚ) / 100 > 3 / 5) ↔ ((n : ℤ) > 60) := by
      rw [gt_iff_lt, div_lt_div_iff₀ (by norm_num) (by norm_num)]
      constructor
      · intro h
        have h60 : (60 : ℚ) < (n : ℚ) := by linarith
        exact_mod_cast h60
      · intro h
        have h60 : (60 : ℚ) < (n : ℚ) := by exact_mod_cast h
        linarith
    have e2 : ((n : ℚ) / 100 < 1 / 2) ↔ ((n : ℤ) < 50) := by
      rw [div_lt_div_iff₀ (by norm_num) (by norm_num)]
      constructor
      · intro h
        have h50 : (n : ℚ) < 50 := by linarith
        exact_mod_cast h50
      · intro h
        have h50 : (n : ℚ) < 50 := by exact_mod_cast h
        linarith
    rw [hround]
    unfold classifyConfidence classifyPercentage
    rw [if_congr e1 rfl (if_congr e2 rfl rfl)]
  · exact validateRow_status

/-- C3: the record's status is derived from the rounded confidence percentage
`p` by: `p > 60 → approved`, `p < 50 → rejected`, `50 ≤ p ≤ 60 → pending`;
in particular `61 → approved`, `60 → pending`, `50 → pending`,
`49 → rejected`. -/
theorem C3_percentage_classification :
    (∀ (k : Bool) (f : FetchOutcome) (row : ParsedRow),
      (validateRow k f row).status =
        classifyPercentage (jsRound ((validateWithSerper k f row).confidence * 100))) ∧
    (∀ p : ℤ, classifyPercentage p = .approved ↔ p > 60) ∧
    (∀ p : ℤ, classifyPercentage p = .rejected ↔ p < 50) ∧
    (∀ p : ℤ, classifyPercentage p = .pending ↔ 50 ≤ p ∧ p ≤ 60) ∧
    classifyPercentage 61 = .approved ∧ classifyPercentage 60 = .pending ∧
    classifyPercentage 50 = .pending ∧ classifyPercentage 49 = .rejected := by
  refine ⟨validateRow_status, ?_, ?_, ?_, by decide, by decide, by decide, by decide⟩
  · intro p
    unfold classifyPercentage
    split_ifs <;> simp_all
  · intro p
    unfold classifyPercentage
    split_ifs <;> simp_all
    all_goals omega
  · intro p
    unfold classifyPercentage
    split_ifs <;> simp_all

end Vetting

namespace Vetting

/-- Confidence 0 rounds to percentage 0, which classifies as `rejected`. -/
lemma classifyPercentage_zero : classifyPercentage (jsRound ((0 : ℚ) * 100)) = .rejected := by
  have h : jsRound ((0 : ℚ) * 100) = 0 := by norm_num [jsRound]
  rw [h]; decide

/-- C4 counterexample: a successful provider call whose results produce an
empty keyword set (all tokens are length ≤ 3 or stop-words) yields confidence
0 but status `rejected` — at the raw-confidence classification already, and
again at the final percentage classification — not the `pending` the claim
requires. -/
theorem C4_counterexample :
    extractKeywords [⟨some "the cat", some "sat"⟩] = [] ∧
    validateWithSerper true (.success (some [⟨some "the cat", some "sat"⟩])) rowFailing =
      ⟨.rejected, "Content appears irrelevant or insufficient", 0⟩ ∧
    (validateRow true (.success (some [⟨some "the cat", some "sat"⟩]))
        rowFailing).status = .rejected := by
  have hk : extractKeywords [(⟨some "the cat", some "sat"⟩ : SearchResult)] = [] := by
    decide
  have hq : (searchQuery rowFailing).isEmpty = false := by decide
  have hv : validateWithSerper true (.success (some [⟨some "the cat", some "sat"⟩]))
      rowFailing = ⟨.rejected, "Content appears irrelevant or insufficient", 0⟩ := by
    rw [validateWithSerper_scored rowFailing _ _ hq]
    simp only [hk, confidenceOf_nil]
    norm_num
  refine ⟨hk, hv, ?_⟩
  rw [validateRow_status,
    show (validateWithSerper true (.success (some [⟨some "the cat", some "sat"⟩]))
        rowFailing).confidence = 0 by rw [hv]]
  exact classifyPercentage_zero

/-- C4 (amended): an empty query is an explicit zero-confidence `pending`
outcome of `validateWithSerper` (message `Insufficient content for
validation`), but an empty extracted keyword set on a successful provider
call yields confidence 0 with status `rejected`, at both classification
steps, not `pending`. -/
theorem C4_degenerate_outcomes :
    (∀ (f : FetchOutcome) (row : ParsedRow), (searchQuery row).isEmpty = true →
      validateWithSerper true f row =
        ⟨.pending, "Insufficient content for validation", 0⟩) ∧
    (∀ (row : ParsedRow) (r : SearchResult) (rs : List SearchResult),
      (searchQuery row).isEmpty = false → extractKeywords (r :: rs) = [] →
      validateWithSerper true (.success (some (r :: rs))) row =
        ⟨.rejected, "Content appears irrelevant or insufficient", 0⟩ ∧
      (validateRow true (.success (some (r :: rs))) row).status = .rejected) := by
  constructor
  · exact validateWithSerper_emptyQuery
  · intro row r rs hq hk
    have hv : validateWithSerper true (.success (some (r :: rs))) row =
        ⟨.rejected, "Content appears irrelevant or insufficient", 0⟩ := by
      rw [validateWithSerper_scored row r rs hq]
      simp only [hk, confidenceOf_nil]
      norm_num
    refine ⟨hv, ?_⟩
    rw [validateRow_status,
      show (validateWithSerper true (.success (some (r :: rs))) row).confidence = 0
        by rw [hv]]
    exact classifyPercentage_zero

/-- Witness for C4 (amended) at concrete inputs: an all-blank row for the
empty-query branch, and short/stop-word-only search results for the
empty-keyword-set branch. -/
theorem C4_degenerate_outcomes_witness :
    validateWithSerper true .failure (⟨none, none, none, none, none, []⟩ : ParsedRow) =
      ⟨.pending, "Insufficient content for validation", 0⟩ ∧
    validateWithSerper true (.success (some [⟨some "the cat", some "sat"⟩])) rowFailing =
      ⟨.rejected, "Content appears irrelevant or insufficient", 0⟩ :=
  ⟨C4_degenerate_outcomes.1 .failure _ (by decide),
   (C4_degenerate_outcomes.2 rowFailing _ [] (by decide) (by decide)).1⟩

/-- C5: the relevance score counts keywords contained as substrings in the
row content; confidence is that count over the keyword-set size, 0 for an
empty set; partial-word (substring) matches count. -/
theorem C5_relevance_confidence :
    (∀ (K : List (List Char)) (c : List Char),
      relevanceScore K c = (K.filter (fun k => containsSub c k)).length) ∧
    (∀ (K : List (List Char)) (c : List Char),
      confidenceOf K c =
        if 0 < K.length then
          ((K.filter (fun k => containsSub c k)).length : ℚ) / (K.length : ℚ)
        else 0) ∧
    (∀ (row : ParsedRow) (r : SearchResult) (rs : List SearchResult),
      (searchQuery row).isEmpty = false →
      (validateWithSerper true (.success (some (r :: rs))) row).confidence =
        confidenceOf (extractKeywords (r :: rs)) (rowContent row)) ∧
    confidenceOf [String.toList "quickly"] (String.toList "it moved quickly today") = 1 ∧
    confidenceOf [] (String.toList "it moved quickly today") = 0 ∧
    containsSub (String.toList "it moved quickly") (String.toList "quick") = true := by
  refine ⟨relevanceScore_eq, ?_, ?_, ?_, confidenceOf_nil _, by decide⟩
  · intro K c
    unfold confidenceOf
    rw [relevanceScore_eq]
  · intro row r rs hq
    rw [validateWithSerper_scored row r rs hq]
    dsimp only
    split_ifs <;> rfl
  · have hs : relevanceScore [String.toList "quickly"]
        (String.toList "it moved quickly today") = 1 := by decide
    unfold confidenceOf
    rw [hs]
    norm_num

/-- C6: a token enters the keyword set iff it is a word-character run of some
result's lowercased `title`+`snippet` text, has length > 3, and is not a
stop-word; the set is deduplicated; the spec's example extracts exactly
`{"quickly"}`. -/
theorem C6_keyword_extraction :
    (∀ (results : List SearchResult) (k : List Char),
      k ∈ extractKeywords results ↔
        ∃ r ∈ results, k ∈ wordRuns (resultText r) ∧ 3 < k.length ∧ k ∉ stopWords) ∧
    (∀ results : List SearchResult, (extractKeywords results).Nodup) ∧
    extractKeywords [⟨some "the cat sat", some "quickly"⟩] =
      [String.toList "quickly"] := by
  refine ⟨?_, ?_, by decide⟩
  · intro results k
    unfold extractKeywords
    rw [mem_foldl_addResultKeywords]
    simp [keepToken, and_assoc]
  · intro results
    exact nodup_foldl_addResultKeywords results [] List.nodup_nil

/-- The QueryBuilder test row: `title="A"`, `content="B"*60`. -/
def rowAB : ParsedRow :=
  ⟨none, some "A", some (String.mk (List.replicate 60 'B')), none, none, []⟩

/-- C7: the query is the space-joined concatenation of the non-absent,
non-empty fields `title`, `content`, `description`, `text` in that order,
truncated to 100 characters; it is empty iff no field contributes, and an
empty query is answered with the `Insufficient content` pending outcome, not
an error. -/
theorem C7_query_builder :
    (∀ row : ParsedRow,
      searchQuery row =
        ((String.intercalate " "
            (((contentFields row).filterMap id).filter (fun s => s ≠ ""))).toList).take
          100) ∧
    (∀ row : ParsedRow, (searchQuery row).length ≤ 100) ∧
    (searchQuery rowAB).length = 62 ∧
    List.take 3 (searchQuery rowAB) = String.toList "A B" ∧
    (∀ row : ParsedRow,
      (∀ s ∈ contentFields row, s = none ∨ s = some "") → searchQuery row = []) ∧
    (∀ (f : FetchOutcome) (row : ParsedRow), searchQuery row = [] →
      validateWithSerper true f row =
        ⟨.pending, "Insufficient content for validation", 0⟩) := by
  refine ⟨fun row => rfl, ?_, by decide, by decide, ?_, ?_⟩
  · intro row
    rw [searchQuery, List.length_take]
    exact min_le_left _ _
  · intro row h
    obtain h1 := h row.title (by simp [contentFields])
    obtain h2 := h row.content (by simp [contentFields])
    obtain h3 := h row.description (by simp [contentFields])
    obtain h4 := h row.text (by simp [contentFields])
    rcases h1 with h1 | h1 <;> rcases h2 with h2 | h2 <;> rcases h3 with h3 | h3 <;>
      rcases h4 with h4 | h4 <;>
      simp [searchQuery, joinTruthy, contentFields, h1, h2, h3, h4,
        String.intercalate]
  · intro f row hq
    exact validateWithSerper_emptyQuery f row (by simp [hq])

/-- Witness for C7 at a concrete row whose fields are all absent or empty. -/
theorem C7_query_builder_witness :
    searchQuery (⟨none, some "", none, none, some "", []⟩ : ParsedRow) = [] ∧
    validateWithSerper true .failure (⟨none, some "", none, none, some "", []⟩ : ParsedRow) =
      ⟨.pending, "Insufficient content for validation", 0⟩ :=
  ⟨C7_query_builder.2.2.2.2.1 _ (by decide),
   C7_query_builder.2.2.2.2.2 .failure _
     (C7_query_builder.2.2.2.2.1 _ (by decide))⟩

end Vetting

namespace Vetting

/-- C8: rows in which no field has a non-whitespace value are excluded from
the record set entirely: the produced records are in bijection with (and
carry exactly) the rows passing the `hasContent` test, so the output count is
the number of non-blank rows — independent of the provider environment. -/
theorem C8_blank_rows_excluded (k : Bool) (f : ℕ → FetchOutcome) (now : String)
    (rows : List ParsedRow) :
    (processRows k f now rows).map (fun d => d.row) = rows.filter hasContent ∧
    (processRows k f now rows).length = (rows.filter hasContent).length := by
  have h : (processRows k f now rows).map (fun d => d.row) = rows.filter hasContent :=
    processRowsAux_rows k f now rows 0
  refine ⟨h, ?_⟩
  calc (processRows k f now rows).length
      = ((processRows k f now rows).map (fun d => d.row)).length :=
        (List.length_map _ _).symm
    _ = (rows.filter hasContent).length := by rw [h]

/-- C9: a human approve (resp. reject) action maps each record with the given
id to the same record with only `status` replaced by `approved` (resp.
`rejected`), and leaves every other record — and every other field of the
matching record — unchanged; the data set keeps its length. -/
theorem C9_human_override_frame (data : List ScrapedData) (id : String) (i : ℕ) :
    (handleApprove id data).length = data.length ∧
    (handleReject id data).length = data.length ∧
    (∀ old new : ScrapedData, data[i]? = some old →
      (handleApprove id data)[i]? = some new →
      new.id = old.id ∧ new.row = old.row ∧ new.issues = old.issues ∧
      new.serperValidation = old.serperValidation ∧ new.scrapedAt = old.scrapedAt ∧
      new.status = (if old.id = id then .approved else old.status)) ∧
    (∀ old new : ScrapedData, data[i]? = some old →
      (handleReject id data)[i]? = some new →
      new.id = old.id ∧ new.row = old.row ∧ new.issues = old.issues ∧
      new.serperValidation = old.serperValidation ∧ new.scrapedAt = old.scrapedAt ∧
      new.status = (if old.id = id then .rejected else old.status)) := by
  refine ⟨by simp [handleApprove], by simp [handleReject], ?_, ?_⟩
  · intro old new hold hnew
    rw [handleApprove, List.getElem?_map, hold] at hnew
    simp only [Option.map_some', Option.some.injEq] at hnew
    subst hnew
    by_cases h : old.id = id <;> simp [h]
  · intro old new hold hnew
    rw [handleReject, List.getElem?_map, hold] at hnew
    simp only [Option.map_some', Option.some.injEq] at hnew
    subst hnew
    by_cases h : old.id = id <;> simp [h]

/-- A concrete two-record data set for the C9 witness. -/
def dataPair : List ScrapedData :=
  [⟨"1", rowFailing, .pending, [], none, "t"⟩,
   ⟨"2", rowFailing, .pending, [], none, "t"⟩]

/-- Witness for C9: approving id "1" in a two-record set flips only the first
record's status and leaves the second record untouched. -/
theorem C9_human_override_frame_witness :
    ((handleApprove "1" dataPair).length = dataPair.length ∧
      ∀ old new : ScrapedData, dataPair[0]? = some old →
        (handleApprove "1" dataPair)[0]? = some new →
        new.id = old.id ∧ new.row = old.row ∧ new.issues = old.issues ∧
        new.serperValidation = old.serperValidation ∧ new.scrapedAt = old.scrapedAt ∧
        new.status = (if old.id = "1" then .approved else old.status)) ∧
    (∀ old new : ScrapedData, dataPair[1]? = some old →
      (handleReject "1" dataPair)[1]? = some new →
      new.id = old.id ∧ new.row = old.row ∧ new.issues = old.issues ∧
      new.serperValidation = old.serperValidation ∧ new.scrapedAt = old.scrapedAt ∧
      new.status = (if old.id = "1" then .rejected else old.status)) :=
  ⟨⟨(C9_human_override_frame dataPair "1" 0).1,
    (C9_human_override_frame dataPair "1" 0).2.2.1⟩,
   (C9_human_override_frame dataPair "1" 1).2.2.2⟩

/-- C10: the `serperValidation.isValid` flag and the automatically assigned
status agree: both are exactly `round(confidence * 100) > 60`, so `isValid`
holds iff the status is `approved`. -/
theorem C10_isValid_iff_approved (k : Bool) (f : FetchOutcome) (row : ParsedRow) :
    ((validateRow k f row).serper.isValid = true ↔
      (validateRow k f row).status = .approved) ∧
    (validateRow k f row).serper.isValid =
      decide (jsRound ((validateWithSerper k f row).confidence * 100) > 60) ∧
    ((validateRow k f row).status = .approved ↔
      jsRound ((validateWithSerper k f row).confidence * 100) > 60) := by
  have happ : (validateRow k f row).status = .approved ↔
      jsRound ((validateWithSerper k f row).confidence * 100) > 60 := by
    rw [validateRow_status]
    unfold classifyPercentage
    split_ifs with h1 h2 <;> simp_all
  refine ⟨?_, validateRow_isValid k f row, happ⟩
  rw [validateRow_isValid, happ]
  simp

end Vetting

namespace Vetting

/-- Witness for C5 at a concrete scored pipeline run. -/
theorem C5_relevance_confidence_witness :
    (validateWithSerper true (.success (some [⟨some "the cat", some "sat"⟩]))
        rowFailing).confidence =
      confidenceOf (extractKeywords [⟨some "the cat", some "sat"⟩])
        (rowContent rowFailing) :=
  C5_relevance_confidence.2.2.1 rowFailing _ [] (by decide)

end Vetting
